import Mathlib

set_option maxRecDepth 100000

/-!
Verification development for the invoice-PDF page parser
(`pdf_converter/test.py` and `pdf_converter/processors/invoice_processor.py`).

The per-page parsing loop of `test.py` is shallowly embedded here.  Page
text is modelled as `List Char`; Python string primitives used by the
script (`split`, `strip`, `replace`, `in`, slicing, `int()`, `float()`,
`datetime.strptime`) are reimplemented below with matching semantics on
the inputs the script feeds them.  A Python exception (IndexError on a
list subscript, ValueError from `int`/`float`) is modelled by `Option`:
any step that would raise makes the surrounding computation `none`.
-/

namespace PdfInv

/-- Characters of a string literal; the model works on `List Char`. -/
def chars (s : String) : List Char := s.data

/-- Python substring containment test helper: is `pat` a prefix of `hay`. -/
def isPre : List Char → List Char → Bool
  | [], _ => true
  | _ :: _, [] => false
  | a :: as, b :: bs => a == b && isPre as bs

/-- Index of the leftmost occurrence of `pat` (nonempty) in the haystack. -/
def findSubIdx (pat : List Char) : List Char → Option Nat
  | [] => none
  | c :: cs => if isPre pat (c :: cs) then some 0 else (findSubIdx pat cs).map (· + 1)

/-- Python `pat in s` (for the nonempty literal markers the script uses). -/
def containsL (hay pat : List Char) : Bool := (findSubIdx pat hay).isSome

/-- Fuelled worker for `splitOnL`. -/
def splitOnAux (pat : List Char) : Nat → List Char → List (List Char)
  | 0, s => [s]
  | fuel + 1, s =>
    match findSubIdx pat s with
    | none => [s]
    | some i => s.take i :: splitOnAux pat fuel (s.drop (i + pat.length))

/-- Python `s.split(pat)` for a nonempty separator: non-overlapping,
left-to-right, keeping empty parts; always returns at least one part. -/
def splitOnL (pat s : List Char) : List (List Char) :=
  if pat.isEmpty then [s] else splitOnAux pat s.length s

/-- Python `s.split(c)` for a single-character separator. -/
def splitChar (sep : Char) : List Char → List (List Char)
  | [] => [[]]
  | c :: cs =>
    let r := splitChar sep cs
    if c == sep then [] :: r
    else
      match r with
      | h :: t => (c :: h) :: t
      | [] => [[c]]

/-- Python `s.strip()` (the script only ever strips ASCII whitespace). -/
def trimL (s : List Char) : List Char :=
  ((s.dropWhile Char.isWhitespace).reverse.dropWhile Char.isWhitespace).reverse

/-- Fuelled worker for `removeAllL`. -/
def removeAllAux (pat : List Char) : Nat → List Char → List Char
  | 0, s => s
  | fuel + 1, s =>
    match findSubIdx pat s with
    | none => s
    | some i => s.take i ++ removeAllAux pat fuel (s.drop (i + pat.length))

/-- Python `s.replace(pat, '')`: delete every occurrence, left to right. -/
def removeAllL (pat s : List Char) : List Char :=
  if pat.isEmpty then s else removeAllAux pat s.length s

/-- Python `''.join(parts)`. -/
def joinL (l : List (List Char)) : List Char := l.flatten

/-- Python `s[-n:]` for `n > 0`. -/
def lastN (n : Nat) (s : List Char) : List Char := s.drop (s.length - n)

/-- Python `s[:-n]` for `n > 0` (empty when `len(s) <= n`). -/
def dropRightL (n : Nat) (s : List Char) : List Char := s.take (s.length - n)

/-- Python negative list indexing `l[-k]` (raises when `k > len(l)`). -/
def negIdx {α : Type} (l : List α) (k : Nat) : Option α :=
  if k ≤ l.length ∧ 1 ≤ k then l.get? (l.length - k) else none

/-- ASCII uppercase test, Python regex `[A-Z]`. -/
def isUpperAZ (c : Char) : Bool := 'A' ≤ c && c ≤ 'Z'

/-- Consume exactly `n` characters satisfying `f`, returning them and the rest. -/
def grabN (f : Char → Bool) : Nat → List Char → Option (List Char × List Char)
  | 0, cs => some ([], cs)
  | _ + 1, [] => none
  | n + 1, c :: cs =>
    if f c then
      match grabN f n cs with
      | some (m, r) => some (c :: m, r)
      | none => none
    else none

/-- Consume exactly `n` ASCII digits (regex `\d{n}`). -/
def grabDigits (n : Nat) (cs : List Char) : Option (List Char × List Char) :=
  grabN Char.isDigit n cs

/-- Python `re.search`: try the pattern at each position left to right. -/
def searchPos {α : Type} (p : List Char → Option α) : List Char → Option α
  | [] => none
  | c :: cs =>
    match p (c :: cs) with
    | some r => some r
    | none => searchPos p cs

/-- Anchored pattern for `re.search(r'(\d{n})', ...)`: `n` digits here. -/
def patDigits (n : Nat) (cs : List Char) : Option (List Char) :=
  (grabDigits n cs).map (·.1)

/-- Anchored pattern for `re.search(r'([A-Z]{n})', ...)`: `n` uppercase here. -/
def patUppers (n : Nat) (cs : List Char) : Option (List Char) :=
  (grabN isUpperAZ n cs).map (·.1)

/-- Anchored pattern for `re.search(r'DUN#(\d{9})', ...)`. -/
def patDUN (cs : List Char) : Option (List Char) :=
  match cs with
  | 'D' :: 'U' :: 'N' :: '#' :: r => patDigits 9 r
  | _ => none

/-- Anchored pattern for `re.search(r'(\d+\.\d{3})', ...)`: a maximal digit
run, a dot, then three digits (a shorter run cannot back off onto a digit,
so the maximal run is the only candidate at each position). -/
def patDec3 (cs : List Char) : Option (List Char) :=
  let ds := cs.takeWhile Char.isDigit
  let r := cs.dropWhile Char.isDigit
  if ds.isEmpty then none
  else
    match r with
    | '.' :: r2 => (grabDigits 3 r2).map fun p => ds ++ '.' :: p.1
    | _ => none

/-- Anchored pattern for the line-item anchor `re.search(r'\d{6}-\d{3}', ...)`. -/
def patAnchor (cs : List Char) : Option Unit := do
  let (_, r) ← grabDigits 6 cs
  match r with
  | '-' :: r2 => (grabDigits 3 r2).map fun _ => ()
  | _ => none

/-- Anchored pattern for `re.search(r'(\d{2}/\d{2}/\d{4})', ...)`,
returning the month, day and year digit groups. -/
def patDate (cs : List Char) : Option (List Char × List Char × List Char) := do
  let (mm, r) ← grabDigits 2 cs
  match r with
  | '/' :: r2 => do
    let (dd, r3) ← grabDigits 2 r2
    match r3 with
    | '/' :: r4 => do
      let (yy, _) ← grabDigits 4 r4
      some (mm, dd, yy)
    | _ => none
  | _ => none

/-- Numeric value of a digit list (most significant first). -/
def digitsToNat (cs : List Char) : Nat :=
  cs.foldl (fun a c => a * 10 + (c.toNat - 48)) 0

/-- Leading `+`/`-` sign of a Python numeric literal. -/
def splitSign (s : List Char) : Int × List Char :=
  match s with
  | c :: r => if c == '+' then (1, r) else if c == '-' then (-1, r) else (1, s)
  | [] => (1, [])

/-- Powers of ten (kept first-order for cheap kernel evaluation). -/
def pow10 : Nat → Nat
  | 0 => 1
  | n + 1 => 10 * pow10 n

/-- Python `float(s)` on the decimal literals the script can feed it
(`none` models the ValueError on anything else, e.g. `float("USD")`).
The value is exact: the decimals at hand are short. -/
def parsePyFloat (s : List Char) : Option Rat :=
  let t := trimL s
  let (sgn, u) := splitSign t
  match splitChar '.' u with
  | [a] =>
    if !a.isEmpty && a.all Char.isDigit then some (mkRat (sgn * (digitsToNat a : Int)) 1)
    else none
  | [a, b] =>
    if (!a.isEmpty || !b.isEmpty) && a.all Char.isDigit && b.all Char.isDigit then
      some (mkRat (sgn * ((digitsToNat a * pow10 b.length + digitsToNat b : Nat) : Int))
        (pow10 b.length))
    else none
  | _ => none

/-- Python `int(s)` (`none` models the ValueError on a malformed string). -/
def parsePyInt (s : List Char) : Option Int :=
  let t := trimL s
  let (sgn, u) := splitSign t
  if !u.isEmpty && u.all Char.isDigit then some (sgn * (digitsToNat u : Int)) else none

/-- Gregorian leap-year rule used by `datetime`. -/
def isLeap (y : Nat) : Bool := (y % 4 == 0 && y % 100 != 0) || y % 400 == 0

/-- Days in a month, as `datetime.strptime` validates them. -/
def daysInMonth (m y : Nat) : Nat :=
  if m == 2 then (if isLeap y then 29 else 28)
  else if m == 4 || m == 6 || m == 9 || m == 11 then 30
  else 31

/-- Does `strptime(_, '%m/%d/%Y')` accept this month/day/year. -/
def validDate (m d y : Nat) : Bool :=
  1 ≤ m && m ≤ 12 && 1 ≤ d && d ≤ daysInMonth m y && 1 ≤ y && y ≤ 9999

/-- Two-digit zero-padded field of `strftime` (`%m`, `%d`). -/
def pad2 (n : Nat) : List Char :=
  if n < 10 then '0' :: (toString n).data else (toString n).data

/-- Python `strftime('%Y-%m-%d')` on the dates reachable here (4-digit years). -/
def fmtDate (m d y : Nat) : List Char :=
  (toString y).data ++ '-' :: (pad2 m ++ '-' :: pad2 d)

/-- Transaction-date extraction of `test.py` lines 118-125: search the
pre-`Date` text for a `\d{2}/\d{2}/\d{4}` shape; a found shape that is not
a real calendar date yields the `9999-12-31` sentinel; no shape at all
yields Python `None` (modelled as `none`). -/
def extractDate (s : List Char) : Option (List Char) :=
  match searchPos patDate s with
  | none => none
  | some (mm, dd, yy) =>
    let m := digitsToNat mm
    let d := digitsToNat dd
    let y := digitsToNat yy
    if validDate m d y then some (fmtDate m d y) else some (chars "9999-12-31")

/-- A Python value as it can sit in a local variable or DataFrame cell of
`test.py`: `None`, a string, an int, or a float (modelled as a rational). -/
inductive PyVal where
  | none
  | str (s : List Char)
  | int (n : Int)
  | rat (q : Rat)
deriving DecidableEq

/-- Python `str(x) if x is not None else ''` on an optional string. -/
def pyStrD (o : Option (List Char)) : List Char := o.getD []

/-- A local holding an optional string, as stored into a row cell. -/
def pyOfOptStr (o : Option (List Char)) : PyVal :=
  match o with
  | Option.none => PyVal.none
  | some s => PyVal.str s

/-- The fields re-extracted at the top of the loop for every page
(`test.py` lines 104-125). -/
structure TopFields where
  report_entity : List Char
  transaction_date : Option (List Char)
  invoice_id : Option (List Char)
  dun_id : Option (List Char)
deriving DecidableEq

/-- The shared `init_page_values` dict. String-typed entries stay strings
because every update coerces with `str(...) if ... else ''`; the four
top entries can hold Python `None`. -/
structure Vals where
  report_entity : List Char
  transaction_date : Option (List Char)
  invoice_id : Option (List Char)
  dun_id : Option (List Char)
  invoice_to : List Char
  sold_to : List Char
  ship_to : List Char
  currency : List Char
  customer_id : List Char
  store_id : List Char
  sales_order_id : List Char
  customer_po : List Char
  terms_str : List Char
  ship_via : List Char
  department_id : List Char
  cartons_count : Int
  cartons_net_weight : Rat
  cartons_net_weight_unit : List Char
  cartons_gross_weight : Rat
  cartons_gross_weight_unit : List Char
  total_units : Int
  merchandise_total : Rat
  merchandise_total_unit : List Char
  freight_total : Rat
  freight_total_unit : List Char
  total_invoice : Rat
  total_invoice_unit : List Char
deriving DecidableEq

/-- The initial `init_page_values` dict of `test.py` lines 61-91. -/
def initVals : Vals where
  report_entity := []
  transaction_date := some []
  invoice_id := some []
  dun_id := some []
  invoice_to := []
  sold_to := []
  ship_to := []
  currency := []
  customer_id := []
  store_id := []
  sales_order_id := []
  customer_po := []
  terms_str := []
  ship_via := []
  department_id := []
  cartons_count := 0
  cartons_net_weight := mkRat 0 1
  cartons_net_weight_unit := []
  cartons_gross_weight := mkRat 0 1
  cartons_gross_weight_unit := []
  total_units := 0
  merchandise_total := mkRat 0 1
  merchandise_total_unit := []
  freight_total := mkRat 0 1
  freight_total_unit := []
  total_invoice := mkRat 0 1
  total_invoice_unit := []

/-- The `init_page_values.update` call of `test.py` lines 127-132, run for
every page. -/
def updateTop (v : Vals) (t : TopFields) : Vals :=
  { v with
    report_entity := t.report_entity
    transaction_date := t.transaction_date
    invoice_id := t.invoice_id
    dun_id := t.dun_id }

/-- Markers used by the loop. -/
def sepInvoice : List Char := chars " Invoice #\n"

/-- The `' Date'` splitter of `test.py` line 105. -/
def sepDate : List Char := chars " Date"

/-- The first-page separator `init_page_sep`. -/
def sepCurrency : List Char := chars "Currency\n"

/-- The last-page marker `last_page_sep` (note the double space). -/
def sepRemit : List Char := chars "REMIT PAYMENT  TO\n \n"

/-- Top-of-loop extraction (`test.py` lines 104-125): block1 split,
DUN number, report entity, remainder after the Invoice marker, invoice
id, transaction date.  Raises (returns `none`) when the Invoice marker
is absent from the page or the Date marker is absent from block1. -/
def extractTop (text : List Char) : Option (TopFields × List Char) := do
  let block1 := (splitOnL sepInvoice text).headD []
  let b1o := splitOnL sepDate block1
  let dun := searchPos patDUN block1
  let re := joinL (((splitChar '\n' (dropRightL 10 (b1o.headD []))).drop 1))
  let bRemain ← (splitOnL sepInvoice text).get? 1
  let b1o1 ← b1o.get? 1
  let inv := searchPos (patDigits 9) b1o1
  let td := extractDate (b1o.headD [])
  some ({ report_entity := re, transaction_date := td, invoice_id := inv, dun_id := dun },
        bRemain)

/-- The first-page header locals of `test.py` lines 136-182 (the raw
values before the dict-update coercions). -/
structure HeaderLocals where
  invoice_to : List Char
  sold_to : List Char
  ship_to : List Char
  currency : Option (List Char)
  customer_id : Option (List Char)
  sales_order_id : Option (List Char)
  customer_po : List Char
  terms_str : List Char
  cartons_count : Int
  net_w : Option (List Char)
  net_u : Option (List Char)
  gross_w : Option (List Char)
  gross_u : Option (List Char)
deriving DecidableEq

/-- The `'No. of Cartons'` token whose unguarded `int()` parse the
first-page branch performs (`test.py` line 161). -/
def cartonsTok (b3_3 : List Char) : List Char :=
  trimL ((splitOnL (chars "No. of Cartons")
    (trimL ((splitOnL (chars "Customer PO") b3_3).headD []))).headD [])

/-- First-page header resolution (`test.py` lines 136-182).  Returns the
header locals and the `block3_other` block list; `none` models the
IndexError of `block3_other[2..5]` on a short commercial-terms sub-block
and the ValueError of the unguarded `int()` on the cartons token. -/
def resolveHeader (bRemain : List Char) : Option (HeaderLocals × List (List Char)) := do
  let block2 := (splitOnL sepCurrency bRemain).headD []
  let block3 ← (splitOnL sepCurrency bRemain).get? 1
  let b3 := splitChar '\n' block3
  let lines2 := splitChar '\n' block2
  let invoice_to := removeAllL (chars "SOLD TO:") (trimL (joinL ((lines2.drop 1).take 3)))
  let sold_to := removeAllL (chars "SHIP TO:") (trimL (joinL ((lines2.drop 4).take 3)))
  let ship_to := trimL (joinL ((lines2.drop 7).take 3))
  let currency := searchPos (patUppers 3) (lines2.getLastD [])
  let customer_id := searchPos (patDigits 8) (b3.headD [])
  let b3_2 ← b3.get? 2
  let sales_order_id := searchPos (patDigits 9) b3_2
  let b3_3 ← b3.get? 3
  let customer_po :=
    trimL ((splitOnL (chars "No. of Cartons")
      (trimL ((splitOnL (chars "Customer PO") b3_3).headD []))).getLastD [])
  let terms_str := trimL ((splitOnL (chars "Terms") (b3.headD [])).headD [])
  let cartons_count ← parsePyInt (cartonsTok b3_3)
  let b3_4 ← b3.get? 4
  let netText := trimL ((splitOnL (chars "Net Weight :") b3_4).getLastD [])
  let net_w := searchPos patDec3 netText
  let net_u := if net_w.isSome then searchPos (patUppers 2) netText else Option.none
  let b3_5 ← b3.get? 5
  let grossText := trimL ((splitOnL (chars "Gross Weight :") b3_5).headD [])
  let gross_w := searchPos patDec3 grossText
  let gross_u := if gross_w.isSome then searchPos (patUppers 2) grossText else Option.none
  some ({ invoice_to := invoice_to, sold_to := sold_to, ship_to := ship_to,
          currency := currency, customer_id := customer_id,
          sales_order_id := sales_order_id, customer_po := customer_po,
          terms_str := terms_str, cartons_count := cartons_count,
          net_w := net_w, net_u := net_u, gross_w := gross_w, gross_u := gross_u },
        b3)

/-- Python `float(x) if x is not None else 0.0` on an optional match string. -/
def optFloat (o : Option (List Char)) : Option Rat :=
  match o with
  | some s => parsePyFloat s
  | Option.none => some (mkRat 0 1)

/-- The dict update of `test.py` lines 185-202, including the `float()`
coercions of the weight match strings (which would raise on an
unconvertible string, hence `Option`). -/
def headerValsUpdate (v : Vals) (h : HeaderLocals) : Option Vals := do
  let nw ← optFloat h.net_w
  let gw ← optFloat h.gross_w
  some { v with
    invoice_to := h.invoice_to
    sold_to := h.sold_to
    ship_to := h.ship_to
    currency := pyStrD h.currency
    customer_id := pyStrD h.customer_id
    store_id := []
    sales_order_id := pyStrD h.sales_order_id
    customer_po := h.customer_po
    terms_str := h.terms_str
    ship_via := []
    department_id := []
    cartons_count := h.cartons_count
    cartons_net_weight := nw
    cartons_net_weight_unit := pyStrD h.net_u
    cartons_gross_weight := gw
    cartons_gross_weight_unit := pyStrD h.gross_u }

/-- The summary locals of `test.py` lines 205-221 (conversions included:
they happen before anything is appended). -/
structure SummaryLocals where
  total_units : Int
  merch : Rat
  merch_u : List Char
  freight : Rat
  freight_u : List Char
  tot_inv : Rat
  tot_inv_u : List Char
deriving DecidableEq

/-- Last-page summary resolution (`test.py` lines 205-221): bounded by the
no-returns trailer, split after `'Total Units '`, four fixed lines with
positional token indexing.  `none` models an IndexError on a missing
line/token or a ValueError from `int()`/`float()`. -/
def resolveSummary (bRemain : List Char) : Option SummaryLocals := do
  let pre := (splitOnL (chars "\n NO RETURNS ACCEPTED WITHOUT AUTHORIZATION.") bRemain).headD []
  let after ← (splitOnL (chars "Total Units ") pre).get? 1
  let si := splitChar '\n' after
  let s0 := si.headD []
  let s1 ← si.get? 1
  let m1 ← (splitOnL (chars "Merchandise Total") s1).get? 1
  let mtoks := splitChar ' ' (trimL m1)
  let merch ← parsePyFloat (mtoks.headD [])
  let merch_u ← mtoks.get? 1
  let s2 ← si.get? 2
  let ftoks := splitChar ' ' s2
  let freight ← parsePyFloat (ftoks.getLastD [])
  let freight_u := ftoks.headD []
  let s3 ← si.get? 3
  let ttoks := splitChar ' ' s3
  let tinv_s ← ttoks.get? 1
  let tinv_u := ttoks.headD []
  let tu ← parsePyInt s0
  let tinv ← parsePyFloat tinv_s
  some { total_units := tu, merch := merch, merch_u := merch_u,
         freight := freight, freight_u := freight_u,
         tot_inv := tinv, tot_inv_u := tinv_u }

/-- The dict update of `test.py` lines 213-221. -/
def summaryValsUpdate (v : Vals) (s : SummaryLocals) : Vals :=
  { v with
    total_units := s.total_units
    merchandise_total := s.merch
    merchandise_total_unit := s.merch_u
    freight_total := s.freight
    freight_total_unit := s.freight_u
    total_invoice := s.tot_inv
    total_invoice_unit := s.tot_inv_u }

/-- One row of `df_summary` (`test.py` lines 222-224): the dict entries
that are summary columns, snapshot at append time. -/
structure SummaryRow where
  report_entity : List Char
  transaction_date : Option (List Char)
  invoice_id : Option (List Char)
  dun_id : Option (List Char)
  invoice_to : List Char
  sold_to : List Char
  ship_to : List Char
  total_units : Int
  merchandise_total : Rat
  merchandise_total_unit : List Char
  freight_total : Rat
  freight_total_unit : List Char
  total_invoice : Rat
  total_invoice_unit : List Char
deriving DecidableEq

/-- Build the `df_summary` row from the dict. -/
def summaryRowOf (v : Vals) : SummaryRow where
  report_entity := v.report_entity
  transaction_date := v.transaction_date
  invoice_id := v.invoice_id
  dun_id := v.dun_id
  invoice_to := v.invoice_to
  sold_to := v.sold_to
  ship_to := v.ship_to
  total_units := v.total_units
  merchandise_total := v.merchandise_total
  merchandise_total_unit := v.merchandise_total_unit
  freight_total := v.freight_total
  freight_total_unit := v.freight_total_unit
  total_invoice := v.total_invoice
  total_invoice_unit := v.total_invoice_unit

/-- Style/colour extraction (`test.py` line 254): the anchor block with
everything from a literal `'Size'` on removed, stripped. -/
def extractStyleColor (b : List Char) : List Char :=
  trimL ((splitOnL (chars "Size") b).headD [])

/-- Size extraction (`test.py` lines 258-260): text after a `'Qty'`
split, stripped, searched for two consecutive uppercase letters. -/
def extractSize (b : List Char) : Option (List Char) :=
  searchPos (patUppers 2) (trimL ((splitOnL (chars "Qty") b).getLastD []))

/-- Quantity extraction (`test.py` line 264): an unguarded `int()`. -/
def extractQty (b : List Char) : Option Int := parsePyInt b

/-- Anchored pattern for `re.search(r'^([A-Z]{3})\s+([A-Z]{2})', ...)`:
the `^` anchor restricts the match to the start of the string, so the
pattern is tried at position 0 only — three uppercase letters, at least
one whitespace character (the greedy `\s+` cannot backtrack onto a
letter, so the maximal run is the only candidate), two uppercase
letters. -/
def originBoth (t : List Char) : Option (List Char × List Char) := do
  let (f, r) ← grabN isUpperAZ 3 t
  let ws := r.takeWhile Char.isWhitespace
  let r2 := r.dropWhile Char.isWhitespace
  if ws.isEmpty then none
  else do
    let (c, _) ← grabN isUpperAZ 2 r2
    some (f, c)

/-- The 4-branch product-family/country decomposition of `test.py`
lines 266-289, on the stripped text before `' Country of Origin'`. -/
def originDecompose (t : List Char) : Option (List Char) × Option (List Char) :=
  match originBoth t with
  | some (f, c) => (some f, some c)
  | Option.none =>
    match t with
    | [a, b, c] =>
      if isUpperAZ a && isUpperAZ b && isUpperAZ c then (some t, Option.none)
      else (Option.none, Option.none)
    | [a, b] =>
      if isUpperAZ a && isUpperAZ b then (Option.none, some t)
      else (Option.none, Option.none)
    | _ => (Option.none, Option.none)

/-- Family/country extraction (`test.py` lines 267-289): decompose the
stripped text before the `' Country of Origin'` marker.  The anchored
`^...$` regexes only accept an exactly-3 or exactly-2 letter string
(the input is stripped, so the trailing-newline case of `$` is moot). -/
def extractOrigin (b : List Char) : Option (List Char) × Option (List Char) :=
  originDecompose (trimL ((splitOnL (chars " Country of Origin") b).headD []))

/-- Tariff-code extraction (`test.py` lines 312-322): last 12 characters
of the stripped text before `' Tariff code'`, accepted only when they
match `\d{4}\.\d{2}\.\d{4}$`. -/
def pyTariffMatch (cs : List Char) : Bool :=
  match grabDigits 4 cs with
  | some (_, '.' :: r) =>
    (match grabDigits 2 r with
     | some (_, '.' :: r2) =>
       (match grabDigits 4 r2 with
        | some (_, rest) => rest.isEmpty || rest == ['\n']
        | Option.none => false)
     | _ => false)
  | _ => false

/-- The tariff extraction as the code performs it. -/
def extractTariff (b : List Char) : Option (List Char) :=
  let t := trimL ((splitOnL (chars " Tariff code") b).headD [])
  if 12 ≤ t.length then
    let l12 := lastN 12 t
    if pyTariffMatch l12 then some l12 else Option.none
  else Option.none

/-- Delivery-id extraction (`test.py` lines 327-336): last 10 characters
of the stripped text before `' Delivery #'`, accepted only when all are
digits. -/
def extractDelivery (b : List Char) : Option (List Char) :=
  let t := trimL ((splitOnL (chars " Delivery #") b).headD [])
  if 10 ≤ t.length then
    let l10 := lastN 10 t
    if l10.all Char.isDigit then some l10 else Option.none
  else Option.none

/-- The bounded forward search of `test.py` lines 302-306: starting at
`blocks[base]`, advance while the block does not contain `'Delivery #'`.
`fuel` is the remaining loop iterations (`loop_total` at the start); the
result is the offset at which the loop stopped, and `none` models the
IndexError of subscripting past the end of the block list. -/
def rdsScan (blocks : List (List Char)) (base : Nat) : Nat → Nat → Option Nat
  | 0, off => some off
  | fuel + 1, off =>
    match blocks.get? (base + off) with
    | Option.none => Option.none
    | some b =>
      if containsL b (chars "Delivery #") then some off
      else rdsScan blocks base fuel (off + 1)

/-- The per-line-item fields built by the anchor loop body
(`test.py` lines 251-343). -/
structure ItemFields where
  style_color : List Char
  style_color_descr : List Char
  size : Option (List Char)
  qty : Int
  product_family : Option (List Char)
  country_of_origin : Option (List Char)
  rds_certified : Int
  tariff_code : Option (List Char)
  delivery_id : Option (List Char)
  other_descr : List Char
  price : List Char
  ext_price : List Char
deriving DecidableEq

/-- One iteration of the anchor loop (`test.py` lines 251-343) for the
anchor at block index `i` with loop bound `loop_total`. `none` models
any IndexError/ValueError raised in the body. -/
def walkOne (blocks : List (List Char)) (i : Nat) (loop_total : Nat) :
    Option ItemFields := do
  let bi ← blocks.get? i
  let style_color := extractStyleColor bi
  let b5 ← blocks.get? (i + 5)
  let style_color_descr := trimL b5
  let b1 ← blocks.get? (i + 1)
  let size := extractSize b1
  let b2 ← blocks.get? (i + 2)
  let qty ← extractQty b2
  let b3 ← blocks.get? (i + 3)
  let (fam, coo) := extractOrigin b3
  let off ← rdsScan blocks (i + 4) loop_total 0
  let bD ← blocks.get? (i + 4 + off)
  let rRaw ← (splitOnL (chars "Delivery #") bD).get? 1
  let rdsText := trimL rRaw
  let rds : Int := if containsL rdsText (chars "RDS Certified") then 1 else 0
  let tariff := extractTariff bD
  let delivery := extractDelivery bD
  let od0 := (splitOnL (chars " Tariff code")
    (trimL (joinL ((blocks.drop (i + 4)).take (off + 1))))).headD []
  let other_descr := if tariff.isSome then dropRightL 12 od0 else od0
  let ptoks := splitChar ' ' rdsText
  let price ← negIdx ptoks 2
  let ext_price := ptoks.getLastD []
  some { style_color := style_color, style_color_descr := style_color_descr,
         size := size, qty := qty, product_family := fam,
         country_of_origin := coo, rds_certified := rds,
         tariff_code := tariff, delivery_id := delivery,
         other_descr := other_descr, price := price, ext_price := ext_price }

/-- Does a block match the line-item anchor pattern. -/
def hasAnchor (b : List Char) : Bool := (searchPos patAnchor b).isSome

/-- The `pattern_indices` list of `test.py` line 247. -/
def anchorIdxs (blocks : List (List Char)) : List Nat :=
  (blocks.enum.filter (fun p => hasAnchor p.2)).map (·.1)

/-- The anchor loop (`test.py` lines 251-343): for each anchor the loop
bound is 100 when the anchor index equals the last anchor index, else
the distance to the next anchor (`test.py` lines 297-300). -/
def walkFrom (blocks : List (List Char)) (lastIdx : Nat) :
    List Nat → Option (List ItemFields)
  | [] => some []
  | i :: rest => do
    let lt ← if i == lastIdx then some 100 else (rest.head?).map (· - i)
    let item ← walkOne blocks i lt
    let items ← walkFrom blocks lastIdx rest
    some (item :: items)

/-- Walk every anchor of a block list. -/
def walkAll (blocks : List (List Char)) : Option (List ItemFields) :=
  walkFrom blocks ((anchorIdxs blocks).getLastD 0) (anchorIdxs blocks)

/-- One row of the output DataFrame (`parsed_data`, `test.py` lines
345-378): the page's top fields, the header locals as they stand when
the row is appended, and the per-item fields. -/
structure Row where
  report_entity : List Char
  transaction_date : Option (List Char)
  invoice_id : Option (List Char)
  dun_id : Option (List Char)
  invoice_to : PyVal
  sold_to : PyVal
  ship_to : PyVal
  currency : PyVal
  customer_id : PyVal
  store_id : PyVal
  sales_order_id : PyVal
  customer_po : PyVal
  terms_str : PyVal
  ship_via : PyVal
  department_id : PyVal
  cartons_count : PyVal
  cartons_net_weight : PyVal
  cartons_net_weight_unit : PyVal
  cartons_gross_weight : PyVal
  cartons_gross_weight_unit : PyVal
  item : ItemFields
deriving DecidableEq

/-- The mutable state carried across loop iterations: the shared dict,
the header-related Python locals (`none` = not yet bound, since the
last-page branch reads locals left over from an earlier iteration and a
document may reach them unbound, a NameError), and `block3_other`. -/
structure LoopState where
  vals : Vals
  l_invoice_to : Option PyVal
  l_sold_to : Option PyVal
  l_ship_to : Option PyVal
  l_currency : Option PyVal
  l_customer_id : Option PyVal
  l_store_id : Option PyVal
  l_sales_order_id : Option PyVal
  l_customer_po : Option PyVal
  l_terms_str : Option PyVal
  l_ship_via : Option PyVal
  l_department_id : Option PyVal
  l_cartons_count : Option PyVal
  l_net_w : Option PyVal
  l_net_u : Option PyVal
  l_gross_w : Option PyVal
  l_gross_u : Option PyVal
  blocks : Option (List (List Char))
deriving DecidableEq

/-- State before the loop starts: dict initialised, no local bound. -/
def initState : LoopState where
  vals := initVals
  l_invoice_to := Option.none
  l_sold_to := Option.none
  l_ship_to := Option.none
  l_currency := Option.none
  l_customer_id := Option.none
  l_store_id := Option.none
  l_sales_order_id := Option.none
  l_customer_po := Option.none
  l_terms_str := Option.none
  l_ship_via := Option.none
  l_department_id := Option.none
  l_cartons_count := Option.none
  l_net_w := Option.none
  l_net_u := Option.none
  l_gross_w := Option.none
  l_gross_u := Option.none
  blocks := Option.none

/-- Are all header locals bound in this state. -/
def allBound (st : LoopState) : Bool :=
  st.l_invoice_to.isSome && st.l_sold_to.isSome && st.l_ship_to.isSome &&
  st.l_currency.isSome && st.l_customer_id.isSome && st.l_store_id.isSome &&
  st.l_sales_order_id.isSome && st.l_customer_po.isSome && st.l_terms_str.isSome &&
  st.l_ship_via.isSome && st.l_department_id.isSome && st.l_cartons_count.isSome &&
  st.l_net_w.isSome && st.l_net_u.isSome && st.l_gross_w.isSome && st.l_gross_u.isSome

/-- Build one `parsed_data` row (`test.py` lines 345-378); `none` models
the NameError of reading a never-bound header local. -/
def mkRow (top : TopFields) (st : LoopState) (it : ItemFields) : Option Row :=
  if allBound st then
    some { report_entity := top.report_entity
           transaction_date := top.transaction_date
           invoice_id := top.invoice_id
           dun_id := top.dun_id
           invoice_to := st.l_invoice_to.getD PyVal.none
           sold_to := st.l_sold_to.getD PyVal.none
           ship_to := st.l_ship_to.getD PyVal.none
           currency := st.l_currency.getD PyVal.none
           customer_id := st.l_customer_id.getD PyVal.none
           store_id := st.l_store_id.getD PyVal.none
           sales_order_id := st.l_sales_order_id.getD PyVal.none
           customer_po := st.l_customer_po.getD PyVal.none
           terms_str := st.l_terms_str.getD PyVal.none
           ship_via := st.l_ship_via.getD PyVal.none
           department_id := st.l_department_id.getD PyVal.none
           cartons_count := st.l_cartons_count.getD PyVal.none
           cartons_net_weight := st.l_net_w.getD PyVal.none
           cartons_net_weight_unit := st.l_net_u.getD PyVal.none
           cartons_gross_weight := st.l_gross_w.getD PyVal.none
           cartons_gross_weight_unit := st.l_gross_u.getD PyVal.none
           item := it }
  else Option.none

/-- The `if init_page_sep in block_remain / elif last_page_sep in
page.extract_text() / else` branching (`test.py` lines 135-240): returns
the state after the branch and the summary rows it appended. -/
def branchStep (st : LoopState) (top : TopFields) (text bRemain : List Char) :
    Option (LoopState × List SummaryRow) :=
  if containsL bRemain sepCurrency then
    (resolveHeader bRemain).bind fun hb =>
      (headerValsUpdate (updateTop st.vals top) hb.1).map fun v2 =>
        ({ st with
            vals := v2
            l_invoice_to := some (PyVal.str hb.1.invoice_to)
            l_sold_to := some (PyVal.str hb.1.sold_to)
            l_ship_to := some (PyVal.str hb.1.ship_to)
            l_currency := some (pyOfOptStr hb.1.currency)
            l_customer_id := some (pyOfOptStr hb.1.customer_id)
            l_store_id := some (PyVal.str [])
            l_sales_order_id := some (pyOfOptStr hb.1.sales_order_id)
            l_customer_po := some (PyVal.str hb.1.customer_po)
            l_terms_str := some (PyVal.str hb.1.terms_str)
            l_ship_via := some (PyVal.str [])
            l_department_id := some (PyVal.str [])
            l_cartons_count := some (PyVal.int hb.1.cartons_count)
            l_net_w := some (pyOfOptStr hb.1.net_w)
            l_net_u := some (pyOfOptStr hb.1.net_u)
            l_gross_w := some (pyOfOptStr hb.1.gross_w)
            l_gross_u := some (pyOfOptStr hb.1.gross_u)
            blocks := some hb.2 }, [])
  else if containsL text sepRemit then
    (resolveSummary bRemain).map fun sm =>
      let v2 := summaryValsUpdate (updateTop st.vals top) sm
      ({ st with vals := v2 }, [summaryRowOf v2])
  else
    let v1 := updateTop st.vals top
    some ({ st with
        vals := v1
        l_invoice_to := some (PyVal.str v1.invoice_to)
        l_sold_to := some (PyVal.str v1.sold_to)
        l_ship_to := some (PyVal.str v1.ship_to)
        l_currency := some (PyVal.str v1.currency)
        l_customer_id := some (PyVal.str v1.customer_id)
        l_store_id := some (PyVal.str v1.store_id)
        l_sales_order_id := some (PyVal.str v1.sales_order_id)
        l_customer_po := some (PyVal.str v1.customer_po)
        l_terms_str := some (PyVal.str v1.terms_str)
        l_ship_via := some (PyVal.str v1.ship_via)
        l_department_id := some (PyVal.str v1.department_id)
        l_cartons_count := some (PyVal.int v1.cartons_count)
        l_net_w := some (PyVal.rat v1.cartons_net_weight)
        l_net_u := some (PyVal.str v1.cartons_net_weight_unit)
        blocks := some (splitChar '\n' bRemain) }, [])

/-- One full iteration of the page loop of `test.py`: top extraction,
branch, then the unconditional anchor walk over whatever `block3_other`
currently holds. -/
def processPage (st : LoopState) (text : List Char) :
    Option (LoopState × List Row × List SummaryRow) := do
  let (top, bRemain) ← extractTop text
  let (st2, sums) ← branchStep st top text bRemain
  let blocks ← st2.blocks
  let items ← walkAll blocks
  let rows ← items.mapM (mkRow top st2)
  some (st2, rows, sums)

/-- Fold the loop over a document's pages, accumulating both DataFrames;
a raised exception anywhere aborts the script (`none`). -/
def processDoc : LoopState → List (List Char) → Option (LoopState × List Row × List SummaryRow)
  | st, [] => some (st, [], [])
  | st, t :: ts => do
    let (st1, rows, sums) ← processPage st t
    let (st2, rows2, sums2) ← processDoc st1 ts
    some (st2, rows ++ rows2, sums ++ sums2)

/-- Run the script on a document. -/
def runDoc (texts : List (List Char)) : Option (LoopState × List Row × List SummaryRow) :=
  processDoc initState texts

/-- Spec-side tariff shape, following the spec's words: exactly twelve
characters, namely 4 digits, a dot, 2 digits, a dot, 4 digits. -/
def specTariffShape (cs : List Char) : Bool :=
  match cs with
  | [a, b, c, d, e, f, g, h, i, j, k, l] =>
    a.isDigit && b.isDigit && c.isDigit && d.isDigit && e == '.' &&
    f.isDigit && g.isDigit && h == '.' &&
    i.isDigit && j.isDigit && k.isDigit && l.isDigit
  | _ => false

/-- Spec-side tariff extraction, following the spec's words: the last 12
characters of the (stripped) text preceding the tariff marker, accepted
only if they match the fixed NNNN.NN.NNNN shape, else absent. -/
def specTariffExtract (b : List Char) : Option (List Char) :=
  let t := trimL ((splitOnL (chars " Tariff code") b).headD [])
  if 12 ≤ t.length && specTariffShape (lastN 12 t) then some (lastN 12 t)
  else Option.none

/-! Concrete pages and blocks used to test the loop on closed inputs.
Every page contains the `' Invoice #\n'` and `' Date'` markers required
by the unconditional top-of-loop extraction. -/

/-- A FIRST page: header markers, one complete line item. -/
def pgFirst : List Char := chars "HDR DUN#222222222\nACME CORP\n01/15/2024 Date 111111111 Invoice #\nX\nIA\nIB\nIC\nSA\nSB\nSC\nTA\nTB\nTC\nUSD Currency\n12345678 Terms NET30\nfiller\n987654321\n5 No. of Cartons POX123 Customer PO j\nNet Weight : 12.345 KG\n23.456 LB Gross Weight :\n157317-001 Nice Jacket\nSM\n12\nHBG CN Country of Origin: x\nD1234567890 Delivery # RDS Certified 4202.92.9100 Tariff code: 10.00 120.00\nDescr Line"

/-- A second FIRST-classified page with different header values. -/
def pgFirst2 : List Char := chars "HDR DUN#888888888\nOTHER GMBH\n03/30/2024 Date 666666666 Invoice #\nX\nJA\nJB\nJC\nQA\nQB\nQC\nRA\nRB\nRC\nEUR Currency\n87654321 Terms NET60\nfiller\n123456789\n9 No. of Cartons POY456 Customer PO j\nNet Weight : 1.111 KG\n2.222 LB Gross Weight :"

/-- A CONTINUATION page: no Currency marker, no remit marker, one item. -/
def pgCont : List Char := chars "HDR\nBETA LLC\n02/20/2024 Date 333333333 Invoice #\n157317-002 Cont Item\nLG\n7\nCN\nd Delivery # p 5.00 35.00\nDesc2"

/-- A CONTINUATION page whose only anchor sits at the last position of
the page's block sequence, with no trailing blocks. -/
def pgC1 : List Char := chars "HDR\nE\n01/15/2024 Date 444444444 Invoice #\njunk\n157317-009 Tail Anchor"

/-- A single page carrying both the FIRST markers and the LAST marker. -/
def pgBoth : List Char := pgFirst ++ chars "\nREMIT PAYMENT  TO\n \nEND"

/-- A page whose text contains no date-shaped string at all. -/
def pgNoDate : List Char := chars "HDR\nACME CORPORATE\nno date at all Date 555555555 Invoice #\njunk line"

/-- A LAST page (remit marker, totals block, no Currency marker). -/
def pgLast : List Char := chars "HDR\nE\n03/03/2024 Date 777777777 Invoice #\npre Total Units 9\nMerchandise Total 1.00 USD\nUSD 2.00\nInvoice 3.00 USD\nREMIT PAYMENT  TO\n \nx"

/-- The totals block of the C5 scenario, exactly as the spec writes it. -/
def c5Block : List Char := chars "Total Units 500\nMerchandise Total 10000.00 USD\nFreight 250.00 USD\nInvoice 10250.00 USD"

/-- The same totals block with the freight line in the unit-first layout
the code actually parses. -/
def c5BlockFixed : List Char := chars "Total Units 500\nMerchandise Total 10000.00 USD\nUSD 250.00\nInvoice 10250.00 USD"

/-- A LAST page whose remainder is exactly the C5 totals block (plus the
remit marker that classifies the page LAST). -/
def pgC5 : List Char :=
  chars "HDR\nE\n04/04/2024 Date 888888888 Invoice #\n" ++ c5Block ++
    chars "\nREMIT PAYMENT  TO\n \nx"

/-- A FIRST-page remainder whose cartons token is not an integer. -/
def c7Remain : List Char := chars "USD Currency\n12345678 Terms N\nf\n987654321\nNo. of Cartons X Customer PO j\nNet Weight : 1.234 KG\n2.345 LB Gross Weight :"

/-- The block sequence of the C6 scenario: the anchor block followed by
the size, quantity and family/country blocks (plus the delivery and
description blocks every walked anchor needs). -/
def blocks6 : List (List Char) := [chars "157317-001 Style Name", chars "M",
  chars "12", chars "HBG CN", chars "d Delivery # a 1.00 2.00", chars "descr"]

/-- A block sequence with two anchors (indices 0 and 5) and no
delivery marker strictly between them: the bounded scan for the first
anchor exhausts its bound (the distance 5 to the next anchor) and the
post-loop read then lands, in range, on the next item's delivery block
at index 9. -/
def blocksCap : List (List Char) := [chars "157317-001 A", chars "SM",
  chars "3", chars "CN", chars "filler one", chars "157317-002 B",
  chars "LG", chars "4", chars "HBG",
  chars "D1234567890 Delivery # p 1.00 2.00", chars "D2"]

/-- A loop state in which every header local is bound (as after any
FIRST or CONTINUATION page). -/
def stBound : LoopState where
  vals := initVals
  l_invoice_to := some (PyVal.str [])
  l_sold_to := some (PyVal.str [])
  l_ship_to := some (PyVal.str [])
  l_currency := some (PyVal.str [])
  l_customer_id := some (PyVal.str [])
  l_store_id := some (PyVal.str [])
  l_sales_order_id := some (PyVal.str [])
  l_customer_po := some (PyVal.str [])
  l_terms_str := some (PyVal.str [])
  l_ship_via := some (PyVal.str [])
  l_department_id := some (PyVal.str [])
  l_cartons_count := some (PyVal.int 0)
  l_net_w := some (PyVal.rat (mkRat 0 1))
  l_net_u := some (PyVal.str [])
  l_gross_w := some (PyVal.str [])
  l_gross_u := some (PyVal.str [])
  blocks := some []

/-- A leftover `block3_other` from a previously processed page, holding
one anchor with a complete item layout. -/
def blksPrev : List (List Char) := [chars "junk", chars "157317-002 X",
  chars "LG", chars "7", chars "CN", chars "d Delivery # a 1.00 2.00", chars "D2"]

/-! Helper lemmas. -/

theorem some_getD {α : Type} {o : Option α} (d : α) (h : o.isSome = true) :
    some (o.getD d) = o := by
  cases o with
  | none => simp at h
  | some a => rfl

theorem mapM_mem {α β : Type} {f : α → Option β} :
    ∀ {l : List α} {res : List β}, l.mapM f = some res →
      ∀ b ∈ res, ∃ a, f a = some b := by
  intro l
  induction l with
  | nil =>
    intro res h b hb
    simp only [List.mapM_nil, Option.pure_def, Option.some.injEq] at h
    subst h
    cases hb
  | cons a l ih =>
    intro res h b hb
    rw [List.mapM_cons] at h
    simp only [Option.pure_def, Option.bind_eq_bind, Option.bind_eq_some,
      Option.some.injEq] at h
    obtain ⟨b0, hb0, bs, hbs, hres⟩ := h
    subst hres
    rcases List.mem_cons.mp hb with h1 | h2
    · exact ⟨a, by rw [hb0, h1]⟩
    · exact ih hbs b h2

theorem searchPos_ex {α : Type} {p : List Char → Option α} :
    ∀ {cs : List Char} {t : α}, searchPos p cs = some t → ∃ suf, p suf = some t := by
  intro cs
  induction cs with
  | nil => intro t h; simp [searchPos] at h
  | cons c cs ih =>
    intro t h
    rw [searchPos] at h
    cases hp : p (c :: cs) with
    | none => rw [hp] at h; exact ih h
    | some r =>
      rw [hp] at h
      have h' : some r = some t := h
      cases h'
      exact ⟨c :: cs, hp⟩

theorem grabN_props {f : Char → Bool} :
    ∀ {n : Nat} {cs m r : List Char}, grabN f n cs = some (m, r) →
      m.length = n ∧ m.all f = true
  | 0, cs, m, r => by
    intro h
    simp only [grabN, Option.some.injEq, Prod.mk.injEq] at h
    obtain ⟨h1, _⟩ := h
    subst h1
    exact ⟨rfl, rfl⟩
  | n + 1, [], m, r => by intro h; simp [grabN] at h
  | n + 1, c :: cs, m, r => by
    intro h
    rw [grabN] at h
    by_cases hc : f c
    · rw [if_pos hc] at h
      cases hg : grabN f n cs with
      | none => rw [hg] at h; cases h
      | some p =>
        rw [hg] at h
        obtain ⟨m', r'⟩ := p
        simp only [Option.some.injEq, Prod.mk.injEq] at h
        obtain ⟨h1, _⟩ := h
        subst h1
        obtain ⟨hl, ha⟩ := grabN_props hg
        refine ⟨by simp [hl], ?_⟩
        simp [List.all_cons, hc, ha]
    · rw [if_neg hc] at h; cases h

theorem dropWhile_no {p : Char → Bool} {l : List Char}
    (h : ∀ c ∈ l, p c = false) : l.dropWhile p = l := by
  cases l with
  | nil => rfl
  | cons c cs =>
    rw [List.dropWhile_cons, h c (List.mem_cons_self c cs)]
    simp

theorem trimL_no_ws {cs : List Char} (h : ∀ c ∈ cs, c.isWhitespace = false) :
    trimL cs = cs := by
  unfold trimL
  rw [dropWhile_no h, dropWhile_no (fun c hc => h c (List.mem_reverse.mp hc)),
    List.reverse_reverse]

theorem splitChar_no_sep {sep : Char} :
    ∀ {m : List Char}, (∀ c ∈ m, c ≠ sep) → splitChar sep m = [m] := by
  intro m
  induction m with
  | nil => intro _; rfl
  | cons c cs ih =>
    intro h
    rw [splitChar]
    have hc : (c == sep) = false := by
      simp only [beq_eq_false_iff_ne, ne_eq]
      exact h c (List.mem_cons_self c cs)
    rw [if_neg (by simp [hc])]
    rw [ih (fun d hd => h d (List.mem_cons_of_mem c hd))]

theorem digit_not_ws {c : Char} (h : c.isDigit = true) : c.isWhitespace = false := by
  cases hw : c.isWhitespace with
  | false => rfl
  | true =>
    exfalso
    simp only [Char.isWhitespace, Bool.or_eq_true, beq_iff_eq, decide_eq_true_eq] at hw
    rcases hw with ((h1 | h1) | h1) | h1 <;> (subst h1; exact absurd h (by decide))

theorem digit_ne {c d : Char} (h : c.isDigit = true) (hd : d.isDigit = false) : c ≠ d := by
  intro he
  subst he
  rw [h] at hd
  cases hd

theorem grabN_append {f : Char → Bool} :
    ∀ {n : Nat} {cs m r : List Char}, grabN f n cs = some (m, r) → cs = m ++ r
  | 0, cs, m, r => by
    intro h
    simp only [grabN, Option.some.injEq, Prod.mk.injEq] at h
    obtain ⟨h1, h2⟩ := h
    subst h1; subst h2
    rfl
  | n + 1, [], m, r => by intro h; simp [grabN] at h
  | n + 1, c :: cs, m, r => by
    intro h
    rw [grabN] at h
    by_cases hc : f c
    · rw [if_pos hc] at h
      cases hg : grabN f n cs with
      | none => rw [hg] at h; cases h
      | some p =>
        rw [hg] at h
        obtain ⟨m', r'⟩ := p
        simp only [Option.some.injEq, Prod.mk.injEq] at h
        obtain ⟨h1, h2⟩ := h
        subst h1; subst h2
        rw [List.cons_append, ← grabN_append hg]
    · rw [if_neg hc] at h; cases h

theorem splitChar_sep_append {sep : Char} :
    ∀ {ds m : List Char}, (∀ c ∈ ds, c ≠ sep) →
      splitChar sep (ds ++ sep :: m) = ds :: splitChar sep m := by
  intro ds
  induction ds with
  | nil =>
    intro m _
    show splitChar sep (sep :: m) = [] :: splitChar sep m
    rw [splitChar, if_pos (by simp)]
  | cons c cs ih =>
    intro m h
    have hc : (c == sep) = false := by
      simp only [beq_eq_false_iff_ne, ne_eq]
      exact h c (List.mem_cons_self c cs)
    show splitChar sep (c :: (cs ++ sep :: m)) = (c :: cs) :: splitChar sep m
    rw [splitChar, if_neg (by simp [hc]), ih (fun d hd => h d (List.mem_cons_of_mem c hd))]

theorem splitSign_digit_head {c : Char} {cs : List Char} (h : c.isDigit = true) :
    splitSign (c :: cs) = (1, c :: cs) := by
  rw [splitSign]
  rw [if_neg (by simp only [beq_iff_eq]; exact digit_ne h (by decide)),
    if_neg (by simp only [beq_iff_eq]; exact digit_ne h (by decide))]

theorem parsePyFloat_dec {ds m : List Char} (hne : ds ≠ [])
    (hds : ds.all Char.isDigit = true) (hm : m.all Char.isDigit = true) :
    (parsePyFloat (ds ++ '.' :: m)).isSome = true := by
  have hdsm : ∀ c ∈ ds, c.isDigit = true := fun c hc => by
    exact List.all_eq_true.mp hds c hc
  have hmm : ∀ c ∈ m, c.isDigit = true := fun c hc => by
    exact List.all_eq_true.mp hm c hc
  have hnows : ∀ c ∈ ds ++ '.' :: m, c.isWhitespace = false := by
    intro c hc
    rcases List.mem_append.mp hc with h1 | h1
    · exact digit_not_ws (hdsm c h1)
    · rcases List.mem_cons.mp h1 with h2 | h2
      · subst h2; decide
      · exact digit_not_ws (hmm c h2)
  have hsplit : splitSign (ds ++ '.' :: m) = (1, ds ++ '.' :: m) := by
    obtain ⟨c, cs, hd⟩ := List.exists_cons_of_ne_nil hne
    rw [hd, List.cons_append,
      splitSign_digit_head (hdsm c (by rw [hd]; exact List.mem_cons_self c cs)),
      ← List.cons_append, ← hd]
  have hchar : splitChar '.' (ds ++ '.' :: m) = ds :: splitChar '.' m := by
    refine splitChar_sep_append ?_
    intro d hdm
    exact digit_ne (hdsm d hdm) (by decide)
  have hchar2 : splitChar '.' m = [m] := by
    refine splitChar_no_sep ?_
    intro d hdm
    exact digit_ne (hmm d hdm) (by decide)
  have hie : ds.isEmpty = false := by
    cases ds with
    | nil => exact absurd rfl hne
    | cons c cs => rfl
  unfold parsePyFloat
  rw [trimL_no_ws hnows]
  simp only [hsplit, hchar, hchar2]
  rw [if_pos]
  · rfl
  · simp only [Bool.and_eq_true, Bool.or_eq_true, Bool.not_eq_true']
    exact ⟨⟨Or.inl hie, hds⟩, hm⟩

theorem patDec3_shape {cs t : List Char} (h : patDec3 cs = some t) :
    ∃ ds m, t = ds ++ '.' :: m ∧ ds ≠ [] ∧ ds.all Char.isDigit = true ∧
      m.all Char.isDigit = true := by
  unfold patDec3 at h
  by_cases he : (cs.takeWhile Char.isDigit).isEmpty
  · rw [if_pos he] at h; cases h
  · rw [if_neg he] at h
    split at h
    · rename_i r2 heq
      rw [Option.map_eq_some'] at h
      obtain ⟨p, hp, ht⟩ := h
      refine ⟨cs.takeWhile Char.isDigit, p.1, ht.symm, ?_, ?_, (grabN_props hp).2⟩
      · intro hnil
        rw [hnil] at he
        exact he rfl
      · rw [List.all_eq_true]
        intro c hc
        exact List.mem_takeWhile_imp hc
    · cases h

theorem float_of_dec3 {cs s : List Char} (h : searchPos patDec3 cs = some s) :
    (parsePyFloat s).isSome = true := by
  obtain ⟨suf, hsuf⟩ := searchPos_ex h
  obtain ⟨ds, m, ht, hne, hds, hm⟩ := patDec3_shape hsuf
  rw [ht]
  exact parsePyFloat_dec hne hds hm

theorem mkRow_fields {top : TopFields} {st : LoopState} {it : ItemFields} {r : Row}
    (h : mkRow top st it = some r) :
    r.report_entity = top.report_entity ∧ r.transaction_date = top.transaction_date ∧
    r.invoice_id = top.invoice_id ∧ r.dun_id = top.dun_id ∧
    some r.invoice_to = st.l_invoice_to ∧ some r.currency = st.l_currency ∧
    some r.customer_id = st.l_customer_id ∧
    some r.sales_order_id = st.l_sales_order_id ∧ r.item = it := by
  unfold mkRow at h
  by_cases hb : allBound st
  · rw [if_pos hb] at h
    unfold allBound at hb
    simp only [Bool.and_eq_true] at hb
    injection h with h
    subst h
    refine ⟨rfl, rfl, rfl, rfl, ?_, ?_, ?_, ?_, rfl⟩
    · exact some_getD _ hb.1.1.1.1.1.1.1.1.1.1.1.1.1.1.1
    · exact some_getD _ hb.1.1.1.1.1.1.1.1.1.1.1.1.2
    · exact some_getD _ hb.1.1.1.1.1.1.1.1.1.1.1.2
    · exact some_getD _ hb.1.1.1.1.1.1.1.1.1.2
  · rw [if_neg hb] at h; cases h

theorem len_four {l : List Char} (h : l.length = 4) : ∃ a b c d, l = [a, b, c, d] := by
  match l, h with
  | [a, b, c, d], _ => exact ⟨a, b, c, d, rfl⟩

theorem len_two {l : List Char} (h : l.length = 2) : ∃ a b, l = [a, b] := by
  match l, h with
  | [a, b], _ => exact ⟨a, b, rfl⟩

theorem spec_imp_py {cs : List Char} (h : specTariffShape cs = true) :
    pyTariffMatch cs = true := by
  unfold specTariffShape at h
  split at h
  · rename_i a b c d e f g h2 i j k l
    simp only [Bool.and_eq_true, beq_iff_eq] at h
    obtain ⟨⟨⟨⟨⟨⟨⟨⟨⟨⟨⟨h1, hb⟩, hc⟩, hd⟩, he⟩, hf⟩, hg⟩, hh⟩, hi⟩, hj⟩, hk⟩, hl⟩ := h
    subst he
    subst hh
    simp [pyTariffMatch, grabDigits, grabN, h1, hb, hc, hd, hf, hg, hi, hj, hk, hl]
  · cases h

theorem py_imp_spec {cs : List Char} (hlen : cs.length = 12)
    (h : pyTariffMatch cs = true) : specTariffShape cs = true := by
  unfold pyTariffMatch at h
  split at h
  case _ m1 r1 h1 =>
    split at h
    case _ m2 r2 h2 =>
      split at h
      case _ m3 rest h3 =>
        have e1 := grabN_append h1
        have e2 := grabN_append h2
        have e3 := grabN_append h3
        obtain ⟨l1, a1⟩ := grabN_props h1
        obtain ⟨l2, a2⟩ := grabN_props h2
        obtain ⟨l3, a3⟩ := grabN_props h3
        have hrest : rest = [] := by
          rw [e1, e2, e3] at hlen
          simp only [List.length_append, List.length_cons, l1, l2, l3] at hlen
          have : rest.length = 0 := by omega
          exact List.length_eq_zero.mp this
        subst hrest
        obtain ⟨a, b, c, d, hm1⟩ := len_four l1
        obtain ⟨e, f, hm2⟩ := len_two l2
        obtain ⟨g, h4, i, j, hm3⟩ := len_four l3
        subst hm1; subst hm2; subst hm3
        rw [e2, e3] at e1
        subst e1
        simp only [List.all_cons, List.all_nil, Bool.and_eq_true] at a1 a2 a3
        show specTariffShape
          ([a, b, c, d] ++ '.' :: ([e, f] ++ '.' :: ([g, h4, i, j] ++ []))) = true
        simp [specTariffShape, a1.1, a1.2.1, a1.2.2.1, a1.2.2.2.1,
          a2.1, a2.2.1, a3.1, a3.2.1, a3.2.2.1, a3.2.2.2.1]
      · cases h
    · cases h
  · cases h

theorem lastN_len {t : List Char} (h : 12 ≤ t.length) : (lastN 12 t).length = 12 := by
  unfold lastN
  rw [List.length_drop]
  omega

theorem tariff_match_spec {t : List Char} (h : 12 ≤ t.length) :
    pyTariffMatch (lastN 12 t) = specTariffShape (lastN 12 t) := by
  cases hpy : pyTariffMatch (lastN 12 t) with
  | true => exact (py_imp_spec (lastN_len h) hpy).symm
  | false =>
    cases hsp : specTariffShape (lastN 12 t) with
    | false => rfl
    | true =>
      exfalso
      rw [spec_imp_py hsp] at hpy
      cases hpy

theorem headerValsUpdate_fields {v : Vals} {h : HeaderLocals} {v2 : Vals}
    (he : headerValsUpdate v h = some v2) :
    v2.invoice_to = h.invoice_to ∧ v2.currency = pyStrD h.currency ∧
    v2.customer_id = pyStrD h.customer_id ∧ v2.invoice_id = v.invoice_id ∧
    v2.transaction_date = v.transaction_date := by
  unfold headerValsUpdate at he
  simp only [Option.bind_eq_bind, Option.bind_eq_some] at he
  obtain ⟨nw, hnw, gw, hgw, hv2⟩ := he
  injection hv2 with hv2
  subst hv2
  exact ⟨rfl, rfl, rfl, rfl, rfl⟩

theorem firstBranch_spec {st : LoopState} {top : TopFields} {text rem : List Char}
    {st2 : LoopState} {rows : List Row} {sums : List SummaryRow}
    (h1 : extractTop text = some (top, rem))
    (h2 : containsL rem sepCurrency = true)
    (h4 : processPage st text = some (st2, rows, sums)) :
    ∃ hb v2, resolveHeader rem = some hb ∧
      headerValsUpdate (updateTop st.vals top) hb.1 = some v2 ∧
      st2.vals = v2 ∧ st2.blocks = some hb.2 ∧ sums = [] ∧
      ∃ items, walkAll hb.2 = some items ∧ items.mapM (mkRow top st2) = some rows := by
  unfold processPage at h4
  rw [h1] at h4
  simp only [Option.bind_eq_bind, Option.some_bind] at h4
  unfold branchStep at h4
  rw [h2] at h4
  simp only [eq_self_iff_true, if_true] at h4
  simp only [Option.bind_eq_some, Option.map_eq_some'] at h4
  obtain ⟨⟨stm, sums0⟩, ⟨hb, hhb, v2, hv2, hpair⟩, h4⟩ := h4
  injection hpair with hst hsums
  subst hst
  subst hsums
  simp only [Option.bind_eq_some, Option.some.injEq] at h4
  obtain ⟨blocks0, hblocks, items, hitems, rows0, hrows, hfin⟩ := h4
  subst hblocks
  simp only [Prod.mk.injEq] at hfin
  obtain ⟨hf1, hf2, hf3⟩ := hfin
  subst hf1
  subst hf2
  subst hf3
  exact ⟨hb, v2, hhb, hv2, rfl, rfl, rfl, items, hitems, hrows⟩

theorem get?_eq_getD_of_lt {α : Type} (l : List α) (d : α) {k : Nat}
    (hk : k < l.length) : l.get? k = some (l.getD k d) := by
  rw [List.getD_eq_getElem l d hk, List.get?_eq_getElem?, List.getElem?_eq_getElem hk]

theorem optFloat_of_search {cs : List Char} :
    (optFloat (searchPos patDec3 cs)).isSome = true := by
  cases hw : searchPos patDec3 cs with
  | none => rfl
  | some s =>
    unfold optFloat
    exact float_of_dec3 hw

theorem headerValsUpdate_isSome {v : Vals} {h : HeaderLocals}
    (hn : (optFloat h.net_w).isSome = true)
    (hg : (optFloat h.gross_w).isSome = true) :
    (headerValsUpdate v h).isSome = true := by
  unfold headerValsUpdate
  obtain ⟨nw, hnw⟩ := Option.isSome_iff_exists.mp hn
  obtain ⟨gw, hgw⟩ := Option.isSome_iff_exists.mp hg
  rw [hnw]
  simp only [Option.bind_eq_bind, Option.some_bind]
  rw [hgw]
  rfl

/-! Claim theorems. -/

/-- Claim C1, counterexample: on a page whose only line-item anchor sits
at the last position of the block sequence (shown by the second and
third conjuncts: the remainder splits into two blocks and the anchor
index list is `[1]`), the script aborts with an IndexError (`none`)
instead of emitting the line item with delivery/tariff/price absent. -/
theorem c1_counterexample :
    (extractTop pgC1).map Prod.snd = some (chars "junk\n157317-009 Tail Anchor") ∧
    anchorIdxs (splitChar '\n' (chars "junk\n157317-009 Tail Anchor")) = [1] ∧
    (splitChar '\n' (chars "junk\n157317-009 Tail Anchor")).length = 2 ∧
    runDoc [pgC1] = Option.none := by
  exact ⟨by decide, by decide, by decide, by decide⟩

/-- Claim C1 as amended: the forward search terminates, but the claimed
no-exception, emit-with-absent-fields behaviour fails at the boundary the
claim singles out, and the cap path does not produce absent fields.
Concretely: (1) an anchor whose walk needs a block past the end of the
page's block sequence — an anchor at the last position in particular —
is not emitted: the walker raises an IndexError (modelled `none`),
already at the style-description read `i+5`; (2) the bounded scan
likewise raises as soon as its scan index passes the end of the block
sequence; (3)-(4) when the bound is exhausted without finding the
delivery marker, the loop stops at offset = bound and the code reads the
first block AFTER the bound: if that block is in range and contains the
marker (for a non-last anchor, the next item's delivery group at its
nominal stride), the item is emitted from that block with its fields
present, not absent — shown on `blocksCap`, where the first anchor's
scan exhausts its bound of 5 and the item is emitted with the delivery
id, price and ext_price of the block after the bound. -/
theorem c1_amended :
    (∀ (blocks : List (List Char)) (i lt : Nat), blocks.length ≤ i + 5 →
      walkOne blocks i lt = Option.none) ∧
    (∀ (blocks : List (List Char)) (base fuel off : Nat),
      blocks.length ≤ base + off → rdsScan blocks base (fuel + 1) off = Option.none) ∧
    rdsScan blocksCap 4 5 0 = some 5 ∧
    (walkOne blocksCap 0 5).map
      (fun it => (it.delivery_id, it.price, it.ext_price)) =
      some (some (chars "1234567890"), chars "1.00", chars "2.00") := by
  refine ⟨?_, ?_, by decide, by decide⟩
  · intro blocks i lt h
    unfold walkOne
    cases hg : blocks.get? i with
    | none => rfl
    | some bi =>
      have h5 : blocks.get? (i + 5) = Option.none := by
        rw [List.get?_eq_none]
        omega
      simp only [Option.bind_eq_bind, Option.some_bind, h5, Option.none_bind]
  · intro blocks base fuel off h
    unfold rdsScan
    have hb : blocks.get? (base + off) = Option.none := by
      rw [List.get?_eq_none]
      omega
    rw [hb]

/-- Witness for C1 as amended, at concrete inputs. -/
theorem c1_amended_witness :
    walkOne [chars "junk"] 0 100 = Option.none ∧ rdsScan [] 0 1 0 = Option.none :=
  ⟨c1_amended.1 [chars "junk"] 0 100 (by decide),
   c1_amended.2.1 [] 0 0 0 (by decide)⟩

/-- Claim C2, counterexample: in a FIRST+CONTINUATION document the
continuation page's line item carries that page's own re-extracted
invoice id (`333333333`), not the id resolved on the FIRST page
(`111111111`), and the shared header dict is mutated again on the second
page (invoice id replaced, dun id overwritten with Python `None`). -/
theorem c2_counterexample :
    (runDoc [pgFirst, pgCont]).map (fun r => r.2.1.map (fun row => row.invoice_id)) =
      some [some (chars "111111111"), some (chars "333333333")] ∧
    (runDoc [pgFirst, pgCont]).map (fun r => r.1.vals.invoice_id) =
      some (some (chars "333333333")) ∧
    (runDoc [pgFirst, pgCont]).map (fun r => r.1.vals.dun_id) = some Option.none ∧
    chars "111111111" ≠ chars "333333333" := by
  exact ⟨by decide, by decide, by decide, by decide⟩

/-- Claim C5, counterexample: on the exact totals block of the claim the
Summary Resolver raises a ValueError (it applies `float` to the LAST
space token of the freight line, here `USD`), so it neither completes
nor yields the claimed values; a LAST page carrying this block aborts
the whole run. -/
theorem c5_counterexample :
    resolveSummary c5Block = Option.none ∧ runDoc [pgC5] = Option.none := by
  exact ⟨by decide, by decide⟩

/-- Claim C5 as amended: total_units and the merchandise line parse as
claimed, but the freight value is read from the LAST space token of the
freight line and the freight unit from the FIRST, so the block only
parses when the freight line is unit-first (`USD 250.00`); and the
total-invoice unit is token 0 of the invoice line — the label
`Invoice` — not the trailing `USD`. -/
theorem c5_amended :
    resolveSummary c5BlockFixed =
      some { total_units := 500, merch := mkRat 10000 1, merch_u := chars "USD",
             freight := mkRat 250 1, freight_u := chars "USD",
             tot_inv := mkRat 10250 1, tot_inv_u := chars "Invoice" } := by
  decide

/-- Claim C6, counterexample: for the anchor block
`"157317-001 Style Name"` followed by `"M"`, `"12"`, `"HBG CN"`, the
walker's style_color keeps the whole anchor block (there is no literal
`Size` to strip), and the single letter `M` fails the two-uppercase
validation, leaving size absent — not `"157317-001"` and `"M"` as the
claim states. -/
theorem c6_counterexample :
    (walkOne blocks6 0 100).map ItemFields.style_color =
      some (chars "157317-001 Style Name") ∧
    (walkOne blocks6 0 100).map ItemFields.size = some Option.none ∧
    chars "157317-001 Style Name" ≠ chars "157317-001" := by
  exact ⟨by decide, by decide, by decide⟩

/-- Claim C6 as amended: the same blocks yield
style_color = `"157317-001 Style Name"` (the anchor block, stripped only
at a literal `Size`), size absent (a single letter fails the 2-uppercase
rule), qty = 12 from block i+2, and family/country `HBG`/`CN` from the
4-branch decomposition of block i+3. -/
theorem c6_amended :
    walkOne blocks6 0 100 =
      some { style_color := chars "157317-001 Style Name",
             style_color_descr := chars "descr",
             size := Option.none, qty := 12,
             product_family := some (chars "HBG"),
             country_of_origin := some (chars "CN"),
             rds_certified := 0, tariff_code := Option.none,
             delivery_id := Option.none,
             other_descr := chars "d Delivery # a 1.00 2.00",
             price := chars "1.00", ext_price := chars "2.00" } := by
  decide

/-- Claim C2 as amended: on a CONTINUATION page (no Currency marker, no
remit marker) the header-block fields attached to the page's line items
(invoice_to, currency, customer_id, sales_order_id, ...) are read,
unmutated, from the shared header as it stood before the page — the
carried-forward FIRST-page values; but report_entity, transaction_date,
invoice_id and dun_id are re-extracted from the page itself: the rows
carry the page's own values and the shared header's top four fields are
mutated again on every page. -/
theorem c2_amended : ∀ (st : LoopState) (text : List Char) (top : TopFields)
    (rem : List Char) (st2 : LoopState) (rows : List Row) (sums : List SummaryRow),
    extractTop text = some (top, rem) →
    containsL rem sepCurrency = false →
    containsL text sepRemit = false →
    processPage st text = some (st2, rows, sums) →
    (∀ r ∈ rows,
      r.invoice_to = PyVal.str st.vals.invoice_to ∧
      r.currency = PyVal.str st.vals.currency ∧
      r.customer_id = PyVal.str st.vals.customer_id ∧
      r.sales_order_id = PyVal.str st.vals.sales_order_id ∧
      r.invoice_id = top.invoice_id ∧
      r.transaction_date = top.transaction_date) ∧
    st2.vals.invoice_id = top.invoice_id ∧
    st2.vals.transaction_date = top.transaction_date ∧
    st2.vals.dun_id = top.dun_id ∧
    st2.vals.currency = st.vals.currency ∧
    sums = [] := by
  intro st text top rem st2 rows sums h1 h2 h3 h4
  unfold processPage at h4
  rw [h1] at h4
  simp only [Option.bind_eq_bind, Option.some_bind] at h4
  unfold branchStep at h4
  rw [h2, h3] at h4
  simp only [Bool.false_eq_true, if_false] at h4
  simp only [Option.some_bind] at h4
  simp only [Option.bind_eq_some, Option.some.injEq] at h4
  obtain ⟨items, hitems, rows0, hrows, hfin⟩ := h4
  simp only [Prod.mk.injEq] at hfin
  obtain ⟨hf1, hf2, hf3⟩ := hfin
  subst hf1
  subst hf2
  subst hf3
  refine ⟨?_, rfl, rfl, rfl, rfl, rfl⟩
  intro r hr
  obtain ⟨it, hit⟩ := mapM_mem hrows r hr
  obtain ⟨a1, a2, a3, a4, a5, a6, a7, a8, a9⟩ := mkRow_fields hit
  refine ⟨?_, ?_, ?_, ?_, a3, a2⟩
  · injection a5.symm with e
    exact e.symm
  · injection a6.symm with e
    exact e.symm
  · injection a7.symm with e
    exact e.symm
  · injection a8.symm with e
    exact e.symm

/-- Witness for C2 as amended: processing the continuation page `pgCont`
from the bound demo state succeeds; its rows keep the state's header
fields while the shared header's invoice id becomes the page's own. -/
theorem c2_amended_witness : ∃ st2 rows sums,
    processPage stBound pgCont = some (st2, rows, sums) ∧
    (∀ r ∈ rows, r.currency = PyVal.str stBound.vals.currency) ∧
    st2.vals.invoice_id = some (chars "333333333") := by
  have hs : (processPage stBound pgCont).isSome = true := by decide
  obtain ⟨⟨st2, rows, sums⟩, hr⟩ := Option.isSome_iff_exists.mp hs
  have h := c2_amended stBound pgCont
    ⟨chars "BETA LLC", some (chars "2024-02-20"), some (chars "333333333"),
      Option.none⟩
    (chars "157317-002 Cont Item\nLG\n7\nCN\nd Delivery # p 5.00 35.00\nDesc2")
    st2 rows sums (by decide) (by decide) (by decide) hr
  exact ⟨st2, rows, sums, hr, fun r hrr => ((h.1 r hrr).2.1), h.2.1⟩

/-- Claim C3, confirmed: on a LAST page that is not also FIRST (remit
marker present, Currency marker absent), the branch only resolves the
summary — it never re-splits the page's own text into blocks:
`block3_other` after the page is whatever it was before, the emitted
line-item rows are exactly the walk of that leftover block sequence (so
every anchor of the previously processed page is walked again and its
items appended a second time), and those duplicated rows carry the LAST
page's own re-extracted invoice_id and transaction_date. -/
theorem c3_last_page_reuses_blocks : ∀ (st : LoopState) (text : List Char)
    (top : TopFields) (rem : List Char) (st2 : LoopState) (rows : List Row)
    (sums : List SummaryRow),
    extractTop text = some (top, rem) →
    containsL rem sepCurrency = false →
    containsL text sepRemit = true →
    processPage st text = some (st2, rows, sums) →
    st2.blocks = st.blocks ∧
    (∃ B items, st.blocks = some B ∧ walkAll B = some items ∧
      items.mapM (mkRow top st2) = some rows) ∧
    (∀ r ∈ rows, r.invoice_id = top.invoice_id ∧
      r.transaction_date = top.transaction_date) ∧
    (∃ sm, resolveSummary rem = some sm ∧
      sums = [summaryRowOf (summaryValsUpdate (updateTop st.vals top) sm)]) := by
  intro st text top rem st2 rows sums h1 h2 h3 h4
  unfold processPage at h4
  rw [h1] at h4
  simp only [Option.bind_eq_bind, Option.some_bind] at h4
  unfold branchStep at h4
  rw [h2, h3] at h4
  simp only [Bool.false_eq_true, if_false, eq_self_iff_true, if_true] at h4
  simp only [Option.map_eq_some', Option.bind_eq_some, Option.some.injEq] at h4
  obtain ⟨⟨stm, sums0⟩, ⟨sm, hsm, hpair⟩, h4⟩ := h4
  injection hpair with hst hsums
  subst hst
  subst hsums
  obtain ⟨B, hB, items, hitems, rows0, hrows, hfin⟩ := h4
  simp only [Prod.mk.injEq] at hfin
  obtain ⟨hf1, hf2, hf3⟩ := hfin
  subst hf1
  subst hf2
  subst hf3
  refine ⟨rfl, ⟨B, items, hB, hitems, hrows⟩, ?_, sm, hsm, rfl⟩
  intro r hr
  obtain ⟨it, hit⟩ := mapM_mem hrows r hr
  obtain ⟨a1, a2, a3, a4, a5, a6, a7, a8, a9⟩ := mkRow_fields hit
  exact ⟨a3, a2⟩

/-- Witness for C3, at a concrete LAST page and a state carrying the
previous page's blocks: processing succeeds, the blocks survive, and
the single re-walked row carries the LAST page's invoice id. -/
theorem c3_witness : ∃ st2 rows sums,
    processPage { stBound with blocks := some blksPrev } pgLast =
      some (st2, rows, sums) ∧
    st2.blocks = some blksPrev ∧
    (∀ r ∈ rows, r.invoice_id = some (chars "777777777")) := by
  have hs : (processPage { stBound with blocks := some blksPrev } pgLast).isSome = true := by
    decide
  obtain ⟨⟨st2, rows, sums⟩, hr⟩ := Option.isSome_iff_exists.mp hs
  have h := c3_last_page_reuses_blocks { stBound with blocks := some blksPrev } pgLast
    ⟨chars "E", some (chars "2024-03-03"), some (chars "777777777"), Option.none⟩
    (chars "pre Total Units 9\nMerchandise Total 1.00 USD\nUSD 2.00\nInvoice 3.00 USD\nREMIT PAYMENT  TO\n \nx")
    st2 rows sums (by decide) (by decide) (by decide) hr
  exact ⟨st2, rows, sums, hr, h.1, fun r hrr => (h.2.2.1 r hrr).1⟩

/-- Claim C4, counterexample: a single-page document carrying both the
FIRST markers (first conjunct: the Currency marker in the remainder) and
the LAST marker (second conjunct) yields one line item but NO
SummaryRecord — the summary branch is never reached, against the claim's
"exactly one SummaryRecord". -/
theorem c4_counterexample :
    containsL ((splitOnL sepInvoice pgBoth).getD 1 []) sepCurrency = true ∧
    containsL pgBoth sepRemit = true ∧
    (runDoc [pgBoth]).map (fun r => (r.2.1.length, r.2.2.length)) = some (1, 0) := by
  exact ⟨by decide, by decide, by decide⟩

/-- Claim C4 as amended: FIRST classification does take priority on a
page that matches both FIRST and LAST markers, the header is resolved
and line items are extracted from that same page's own blocks — but
processing does not fall through to summary extraction: the summary-row
output of such a page is empty, so no SummaryRecord is produced. -/
theorem c4_amended : ∀ (st : LoopState) (text : List Char) (top : TopFields)
    (rem : List Char) (st2 : LoopState) (rows : List Row) (sums : List SummaryRow),
    extractTop text = some (top, rem) →
    containsL rem sepCurrency = true →
    processPage st text = some (st2, rows, sums) →
    sums = [] ∧
    ∃ hb, resolveHeader rem = some hb ∧ st2.blocks = some hb.2 ∧
      ∃ items, walkAll hb.2 = some items ∧ items.mapM (mkRow top st2) = some rows := by
  intro st text top rem st2 rows sums h1 h2 h4
  obtain ⟨hb, v2, hhb, hv2, hvals, hblocks, hsums, items, hit, hrm⟩ :=
    firstBranch_spec h1 h2 h4
  exact ⟨hsums, hb, hhb, hblocks, items, hit, hrm⟩

/-- Witness for C4 as amended: the dual-marker page `pgBoth` processes
successfully and emits no summary row. -/
theorem c4_amended_witness : ∃ st2 rows sums,
    processPage initState pgBoth = some (st2, rows, sums) ∧ sums = [] := by
  have hs : (processPage initState pgBoth).isSome = true := by decide
  obtain ⟨⟨st2, rows, sums⟩, hr⟩ := Option.isSome_iff_exists.mp hs
  have h := c4_amended initState pgBoth
    ⟨chars "ACME CORP", some (chars "2024-01-15"), some (chars "111111111"),
      some (chars "222222222")⟩
    ((splitOnL sepInvoice pgBoth).getD 1 []) st2 rows sums
    (by decide) (by decide) hr
  exact ⟨st2, rows, sums, hr, h.1⟩

/-- Claim C7, counterexample: a FIRST-classified page remainder (the
Currency marker is present, first conjunct) on which header resolution
raises: the cartons token is `X`, whose unguarded `int()` parse fails,
aborting resolution instead of defaulting that one field. -/
theorem c7_counterexample :
    containsL c7Remain sepCurrency = true ∧ resolveHeader c7Remain = Option.none := by
  exact ⟨by decide, by decide⟩

set_option maxHeartbeats 2000000 in
/-- Claim C7 as amended: the fields extracted by validating patterns
(currency, customer id, sales-order id, the net/gross weights and their
units) do default independently — header resolution completes whenever
the structural preconditions of the unguarded accesses hold, namely the
commercial-terms sub-block has at least six newline-separated segments
and the cartons token parses as an integer; but a FIRST page violating
either of those aborts header resolution with an exception instead of
defaulting just that field. -/
theorem c7_amended : ∀ (bRemain : List Char) (v : Vals),
    6 ≤ (splitChar '\n' ((splitOnL sepCurrency bRemain).getD 1 [])).length →
    (parsePyInt (cartonsTok
      ((splitChar '\n' ((splitOnL sepCurrency bRemain).getD 1 [])).getD 3 []))).isSome = true →
    ((resolveHeader bRemain).bind (fun hb => headerValsUpdate v hb.1)).isSome = true := by
  intro bRemain v h6 hcart
  cases hs : (splitOnL sepCurrency bRemain).get? 1 with
  | none =>
    exfalso
    have hd : (splitOnL sepCurrency bRemain).getD 1 [] = [] :=
      List.getD_eq_default _ _ (List.get?_eq_none.mp hs)
    rw [hd] at h6
    simp [splitChar] at h6
  | some block3 =>
    have hlt : 1 < (splitOnL sepCurrency bRemain).length := by
      by_contra hc
      rw [List.get?_eq_none.mpr (by omega)] at hs
      cases hs
    have hd : (splitOnL sepCurrency bRemain).getD 1 [] = block3 := by
      have hs2 := hs
      rw [get?_eq_getD_of_lt _ ([] : List Char) hlt] at hs2
      exact Option.some_inj.mp hs2
    rw [hd] at h6 hcart
    obtain ⟨n, hn⟩ := Option.isSome_iff_exists.mp hcart
    have g2 := get?_eq_getD_of_lt (splitChar '\n' block3) ([] : List Char)
      (show 2 < _ by omega)
    have g3 := get?_eq_getD_of_lt (splitChar '\n' block3) ([] : List Char)
      (show 3 < _ by omega)
    have g4 := get?_eq_getD_of_lt (splitChar '\n' block3) ([] : List Char)
      (show 4 < _ by omega)
    have g5 := get?_eq_getD_of_lt (splitChar '\n' block3) ([] : List Char)
      (show 5 < _ by omega)
    unfold resolveHeader
    simp only [hs, g2, g3, g4, g5, hn, Option.bind_eq_bind, Option.some_bind]
    exact headerValsUpdate_isSome optFloat_of_search optFloat_of_search

/-- Witness for C7 as amended: the well-shaped FIRST-page remainder of
`pgFirst` satisfies both preconditions and header resolution (including
the dict update) completes. -/
theorem c7_amended_witness :
    ((resolveHeader ((splitOnL sepInvoice pgFirst).getD 1 [])).bind
      (fun hb => headerValsUpdate initVals hb.1)).isSome = true :=
  c7_amended ((splitOnL sepInvoice pgFirst).getD 1 []) initVals (by decide) (by decide)

/-- Claim C8, counterexample: when no date-shaped string is found at all
the transaction date becomes Python `None` — a null — not the
`9999-12-31` sentinel: directly for the extractor, and at whole-page
level the shared header's transaction_date is `None` after the page. -/
theorem c8_counterexample :
    extractDate (chars "no date at all") = Option.none ∧
    (runDoc [pgNoDate]).map (fun r => r.1.vals.transaction_date) =
      some Option.none := by
  exact ⟨by decide, by decide⟩

/-- Claim C8 as amended: the sentinel `9999-12-31` is used exactly when a
date-shaped string (`\d{2}/\d{2}/\d{4}`) is found but is not a real
calendar date; when no date-shaped string is found the field is set to
`None` (absent), and a valid date is formatted as ISO `%Y-%m-%d`. -/
theorem c8_amended : ∀ s : List Char,
    (searchPos patDate s = Option.none → extractDate s = Option.none) ∧
    (∀ mm dd yy, searchPos patDate s = some (mm, dd, yy) →
      validDate (digitsToNat mm) (digitsToNat dd) (digitsToNat yy) = false →
      extractDate s = some (chars "9999-12-31")) ∧
    (∀ mm dd yy, searchPos patDate s = some (mm, dd, yy) →
      validDate (digitsToNat mm) (digitsToNat dd) (digitsToNat yy) = true →
      extractDate s = some (fmtDate (digitsToNat mm) (digitsToNat dd) (digitsToNat yy))) := by
  intro s
  refine ⟨?_, ?_, ?_⟩
  · intro h
    unfold extractDate
    rw [h]
  · intro mm dd yy h hv
    unfold extractDate
    rw [h]
    simp [hv]
  · intro mm dd yy h hv
    unfold extractDate
    rw [h]
    simp [hv]

/-- Witness for C8 as amended, at concrete inputs: no date shape gives
`None`; the date-shaped but invalid `99/99/2024` gives the sentinel. -/
theorem c8_amended_witness :
    extractDate (chars "x") = Option.none ∧
    extractDate (chars "99/99/2024") = some (chars "9999-12-31") := by
  constructor
  · exact (c8_amended (chars "x")).1 (by decide)
  · exact (c8_amended (chars "99/99/2024")).2.1 (chars "99") (chars "99")
      (chars "2024") (by decide) (by decide)

/-- Claim C9, counterexample: a document with two FIRST-classified pages
parses to completion with no error of any kind, and the second page's
header values silently replace the first's: after the run the shared
header holds page 2's currency `EUR` and customer id, while page 1 alone
had resolved currency `USD`. -/
theorem c9_counterexample :
    (runDoc [pgFirst, pgFirst2]).map
      (fun r => (r.1.vals.currency, r.1.vals.customer_id, r.2.2.length)) =
      some (chars "EUR", chars "87654321", 0) ∧
    (processPage initState pgFirst).map (fun r => r.1.vals.currency) =
      some (chars "USD") ∧
    chars "EUR" ≠ chars "USD" := by
  exact ⟨by decide, by decide, by decide⟩

/-- Claim C9 as amended: a FIRST-classified page is processed the same
way whatever came before it — the shared header's fields are overwritten
with values resolved from that page alone (invoice_to, currency,
customer_id from its own header block; invoice_id and transaction_date
from its own top fields), no document-level error is raised, and the
parse continues normally (no summary row, FIRST branch). A second
FIRST page inside one document therefore silently replaces the header
rather than failing the document. -/
theorem c9_amended : ∀ (st : LoopState) (text : List Char) (top : TopFields)
    (rem : List Char) (st2 : LoopState) (rows : List Row) (sums : List SummaryRow),
    extractTop text = some (top, rem) →
    containsL rem sepCurrency = true →
    processPage st text = some (st2, rows, sums) →
    ∃ hb, resolveHeader rem = some hb ∧
      st2.vals.invoice_to = hb.1.invoice_to ∧
      st2.vals.currency = pyStrD hb.1.currency ∧
      st2.vals.customer_id = pyStrD hb.1.customer_id ∧
      st2.vals.invoice_id = top.invoice_id ∧
      st2.vals.transaction_date = top.transaction_date ∧
      sums = [] := by
  intro st text top rem st2 rows sums h1 h2 h4
  obtain ⟨hb, v2, hhb, hv2, hvals, hblocks, hsums, items, hit, hrm⟩ :=
    firstBranch_spec h1 h2 h4
  obtain ⟨f1, f2, f3, f4, f5⟩ := headerValsUpdate_fields hv2
  refine ⟨hb, hhb, ?_, ?_, ?_, ?_, ?_, hsums⟩
  · rw [hvals, f1]
  · rw [hvals, f2]
  · rw [hvals, f3]
  · rw [hvals, f4]
    exact rfl
  · rw [hvals, f5]
    exact rfl

/-- Witness for C9 as amended: processing the second FIRST page
`pgFirst2` from the bound demo state succeeds and overwrites the header
with that page's own currency (`EUR`). -/
theorem c9_amended_witness : ∃ st2 rows sums hb,
    processPage stBound pgFirst2 = some (st2, rows, sums) ∧
    resolveHeader ((splitOnL sepInvoice pgFirst2).getD 1 []) = some hb ∧
    st2.vals.currency = pyStrD hb.1.currency ∧ sums = [] := by
  have hs : (processPage stBound pgFirst2).isSome = true := by decide
  obtain ⟨⟨st2, rows, sums⟩, hr⟩ := Option.isSome_iff_exists.mp hs
  have h := c9_amended stBound pgFirst2
    ⟨chars "OTHER GMBH", some (chars "2024-03-30"), some (chars "666666666"),
      some (chars "888888888")⟩
    ((splitOnL sepInvoice pgFirst2).getD 1 []) st2 rows sums
    (by decide) (by decide) hr
  obtain ⟨hb, hhb, g1, g2, g3, g4, g5, hsums⟩ := h
  exact ⟨st2, rows, sums, hb, hr, hhb, g2, hsums⟩

/-- Claim C10, confirmed: the code's tariff extraction coincides with
the spec-worded rule — the last 12 characters of the (stripped) text
preceding the tariff marker, accepted exactly when they are 4 digits, a
dot, 2 digits, a dot, 4 digits, else absent — and the two scenario
instances hold: a text ending in `9999.99.9999` yields that code, one
ending in `abcdefghijkl` leaves it absent. -/
theorem c10_tariff_code :
    (∀ b : List Char, extractTariff b = specTariffExtract b) ∧
    extractTariff (chars "xx9999.99.9999 Tariff code z") = some (chars "9999.99.9999") ∧
    extractTariff (chars "xxabcdefghijkl Tariff code z") = Option.none := by
  refine ⟨?_, by decide, by decide⟩
  intro b
  unfold extractTariff specTariffExtract
  simp only []
  by_cases h : 12 ≤ (trimL ((splitOnL (chars " Tariff code") b).headD [])).length
  · rw [if_pos h, tariff_match_spec h]
    have hd : decide (12 ≤ (trimL ((splitOnL (chars " Tariff code") b).headD [])).length) = true :=
      decide_eq_true h
    cases hs : specTariffShape (lastN 12 (trimL ((splitOnL (chars " Tariff code") b).headD []))) with
    | true => simp only [hs, hd, Bool.and_self, if_pos]
    | false => simp only [hs, hd, Bool.and_false, Bool.false_eq_true, if_false]
  · rw [if_neg h]
    have hd : decide (12 ≤ (trimL ((splitOnL (chars " Tariff code") b).headD [])).length) = false :=
      decide_eq_false h
    simp only [hd, Bool.false_and, Bool.false_eq_true, if_false]

end PdfInv
